import Mathlib

/-!
Shallow embedding of the Foodgram backend fragments relevant to the
short-link generator and the shopping-list export, together with proofs
about them.

Source files embedded here:
* `backend/recipes/models.py` — `Recipe`, `RecipeIngredient`,
  `ShoppingCart` (rows of `user`/`recipe`), `Recipe.generate_short_url`,
  `Recipe.save`.
* `backend/list/models.py` — `ShoppingList` (same row shape as
  `ShoppingCart`).
* `backend/list/views.py` — `ShoppingListViewSet.download_shopping_list`
  (the aggregated export).
* `backend/api/views.py` / `backend/recipes/views.py` —
  `DownloadShoppingCartView.get` (the per-recipe export),
  `BaseRecipeRelationView.post`, `ShoppingCartView.post`/`delete`.

Database tables are embedded as Lists of rows; Django querysets become
List operations with the SQL semantics spelled out (joins produce one
output row per matching pair; `values(...).annotate(Sum(...))` is a
group-by with one output row per distinct key).  `random.choices` is
embedded as an ambient draw sequence `Nat → Fin 6 → Fin 62`, and the
unbounded `while True` loop of `generate_short_url` is embedded with
explicit fuel: a `none` result means the loop has not terminated within
`fuel` iterations, and a result that is `none` for every fuel is a
non-terminating run.
-/

namespace Foodgram

/-- `ingredients/models.py`: an `Ingredient` row (`name`,
`measurement_unit`; `id` is the implicit primary key). -/
structure Ingredient where
  id : Nat
  name : String
  measurement_unit : String
deriving DecidableEq

/-- `recipes/models.py`: a `Recipe` row.  `short_link` is nullable until
first save (`none` = SQL NULL); other CRUD fields are irrelevant to the
claims and omitted. -/
structure Recipe where
  id : Nat
  name : String
  short_link : Option String
deriving DecidableEq

/-- `recipes/models.py`: a `RecipeIngredient` row; `recipe` is the
foreign key (recipe id), `ingredient` the referenced `Ingredient` row,
`amount` a positive small integer. -/
structure RecipeIngredient where
  recipe : Nat
  ingredient : Ingredient
  amount : Nat
deriving DecidableEq

/-- A user–recipe row: the shape shared by `recipes.ShoppingCart`,
`list.ShoppingList` and `recipes.Favorite` (fields `user`, `recipe`).
The `recipe` foreign key is materialised as the referenced row. -/
structure CartRow where
  user : Nat
  recipe : Recipe
deriving DecidableEq

/-- The stored short links: `Recipe.objects.filter(short_link=...)`
ranges over the non-NULL `short_link` column. -/
def shortLinks (recipes : List Recipe) : List String :=
  recipes.filterMap (·.short_link)

/-- `string.ascii_letters + string.digits`, the alphabet of
`generate_short_url`. -/
def tokenAlphabet : List Char :=
  "abcdefghijklmnopqrstuvwxyzABCDEFGHIJKLMNOPQRSTUVWXYZ0123456789".data

theorem tokenAlphabet_length : tokenAlphabet.length = 62 := by decide

/-- One candidate token:
`''.join(random.choices(string.ascii_letters + string.digits, k=6))`,
where the six draws are given by `d`. -/
def mkToken (d : Fin 6 → Fin 62) : String :=
  String.mk ((List.finRange 6).map fun i => tokenAlphabet.getD (d i).val 'a')

/-- `Recipe.generate_short_url` (`recipes/models.py` 76–83): the
`while True` rejection-sampling loop, with the random stream `draws`
(the `i`-th iteration uses `draws i`) and explicit fuel.  A `some`
result is the value returned by the Python loop; `none` means the loop
has not returned within `fuel` iterations. -/
def generate_short_url (recipes : List Recipe) (draws : Nat → Fin 6 → Fin 62) :
    Nat → Nat → Option String
  | _, 0 => none
  | i, fuel + 1 =>
    let short_url := mkToken (draws i)
    if short_url ∈ shortLinks recipes then
      generate_short_url recipes draws (i + 1) fuel
    else
      some short_url

theorem mkToken_length (d : Fin 6 → Fin 62) : (mkToken d).length = 6 := by
  simp [mkToken, String.length]

theorem mkToken_mem_alphabet (d : Fin 6 → Fin 62) :
    ∀ c ∈ (mkToken d).data, c ∈ tokenAlphabet := by
  intro c hc
  simp only [mkToken, String.data, List.mem_map] at hc
  obtain ⟨i, -, rfl⟩ := hc
  have hlt : ((d i) : Nat) < tokenAlphabet.length := by
    rw [tokenAlphabet_length]; exact (d i).isLt
  rw [List.getD_eq_get _ _ hlt]
  exact List.get_mem _ _ _

theorem generate_short_url_fresh (recipes : List Recipe)
    (draws : Nat → Fin 6 → Fin 62) :
    ∀ fuel i s, generate_short_url recipes draws i fuel = some s →
      s.length = 6 ∧ (∀ c ∈ s.data, c ∈ tokenAlphabet) ∧
        s ∉ shortLinks recipes := by
  intro fuel
  induction fuel with
  | zero => intro i s h; simp [generate_short_url] at h
  | succ n ih =>
    intro i s h
    simp only [generate_short_url] at h
    by_cases hmem : mkToken (draws i) ∈ shortLinks recipes
    · rw [if_pos hmem] at h
      exact ih (i + 1) s h
    · rw [if_neg hmem] at h
      cases h
      exact ⟨mkToken_length _, mkToken_mem_alphabet _, hmem⟩

/-- C2: every value returned by `generate_short_url` is a 6-character
string over `[A-Za-z0-9]` that is not among the stored short links, and
a colliding candidate is rejected: the loop simply moves on to the next
draw. -/
theorem generate_short_url_spec (recipes : List Recipe)
    (draws : Nat → Fin 6 → Fin 62) :
    (∀ i fuel s, generate_short_url recipes draws i fuel = some s →
        s.length = 6 ∧ (∀ c ∈ s.data, c ∈ tokenAlphabet) ∧
          s ∉ shortLinks recipes) ∧
    (∀ i fuel, mkToken (draws i) ∈ shortLinks recipes →
        generate_short_url recipes draws i (fuel + 1) =
          generate_short_url recipes draws (i + 1) fuel) := by
  constructor
  · intro i fuel s h
    exact generate_short_url_fresh recipes draws fuel i s h
  · intro i fuel hmem
    simp [generate_short_url, hmem]

/-- A draw sequence whose first candidate collides with `exRecipeAAA`
and whose later candidates do not. -/
def exDrawsRetry : Nat → Fin 6 → Fin 62 :=
  fun i => if i = 0 then fun _ => 0 else fun _ => 1

/-- A recipe row holding the short link "aaaaaa". -/
def exRecipeAAA : Recipe := ⟨1, "borscht", some "aaaaaa"⟩

/-- C2 witness: with "aaaaaa" stored and the first draw colliding, the
generator returns the second candidate "bbbbbb", which is 6 characters
over the alphabet and unused. -/
theorem generate_short_url_spec_witness :
    generate_short_url [exRecipeAAA] exDrawsRetry 0 2 = some "bbbbbb" ∧
      "bbbbbb".length = 6 ∧ (∀ c ∈ "bbbbbb".data, c ∈ tokenAlphabet) ∧
        "bbbbbb" ∉ shortLinks [exRecipeAAA] := by
  have hgen : generate_short_url [exRecipeAAA] exDrawsRetry 0 2 =
      some "bbbbbb" := by decide
  exact ⟨hgen,
    (generate_short_url_spec [exRecipeAAA] exDrawsRetry).1 0 2 "bbbbbb" hgen⟩

theorem generate_short_url_first_fresh (recipes : List Recipe)
    (draws : Nat → Fin 6 → Fin 62) :
    ∀ k i, (∀ j, j < k → mkToken (draws (i + j)) ∈ shortLinks recipes) →
      mkToken (draws (i + k)) ∉ shortLinks recipes →
      ∀ fuel, k < fuel →
        generate_short_url recipes draws i fuel =
          some (mkToken (draws (i + k))) := by
  intro k
  induction k with
  | zero =>
    intro i _ hfresh fuel hfuel
    obtain ⟨m, rfl⟩ := Nat.exists_eq_succ_of_ne_zero (Nat.pos_iff_ne_zero.mp hfuel)
    simp only [Nat.add_zero] at hfresh
    simp [generate_short_url, hfresh]
  | succ n ih =>
    intro i hcoll hfresh fuel hfuel
    obtain ⟨m, rfl⟩ := Nat.exists_eq_succ_of_ne_zero
      (Nat.pos_iff_ne_zero.mp (Nat.lt_of_le_of_lt (Nat.zero_le _) hfuel))
    have hhead : mkToken (draws i) ∈ shortLinks recipes := by
      have := hcoll 0 (Nat.succ_pos n)
      simpa using this
    simp only [generate_short_url, if_pos hhead]
    have hcoll' : ∀ j, j < n → mkToken (draws (i + 1 + j)) ∈ shortLinks recipes := by
      intro j hj
      have := hcoll (j + 1) (Nat.succ_lt_succ hj)
      have harith : i + (j + 1) = i + 1 + j := by omega
      rwa [harith] at this
    have hfresh' : mkToken (draws (i + 1 + n)) ∉ shortLinks recipes := by
      have harith : i + (n + 1) = i + 1 + n := by omega
      rwa [harith] at hfresh
    have hm : n < m := Nat.lt_of_succ_lt_succ hfuel
    have harith2 : i + 1 + n = i + (n + 1) := by omega
    have := ih (i + 1) hcoll' hfresh' m hm
    rw [harith2] at this
    exact this

theorem generate_short_url_all_stale (recipes : List Recipe)
    (draws : Nat → Fin 6 → Fin 62)
    (h : ∀ k, mkToken (draws k) ∈ shortLinks recipes) :
    ∀ fuel i, generate_short_url recipes draws i fuel = none := by
  intro fuel
  induction fuel with
  | zero => intro i; rfl
  | succ n ih =>
    intro i
    simp only [generate_short_url, if_pos (h i)]
    exact ih (i + 1)

/-- C9: the rejection-sampling loop has no fixed retry bound.  If the
draw sequence first leaves the stored set at index `k` (after `k`
colliding candidates, however large `k` is), the loop terminates after
exactly `k + 1` iterations — i.e. for every fuel above `k` — and
returns that first fresh token; if every draw collides with a stored
short link, the loop never returns (it yields `none` at every fuel). -/
theorem generate_short_url_unbounded (recipes : List Recipe)
    (draws : Nat → Fin 6 → Fin 62) :
    (∀ k, (∀ j, j < k → mkToken (draws j) ∈ shortLinks recipes) →
        mkToken (draws k) ∉ shortLinks recipes →
        ∀ fuel, k < fuel →
          generate_short_url recipes draws 0 fuel =
            some (mkToken (draws k))) ∧
    ((∀ k, mkToken (draws k) ∈ shortLinks recipes) →
        ∀ fuel, generate_short_url recipes draws 0 fuel = none) := by
  constructor
  · intro k hcoll hfresh fuel hfuel
    have := generate_short_url_first_fresh recipes draws k 0
      (by intro j hj; simpa using hcoll j hj)
      (by simpa using hfresh) fuel hfuel
    simpa using this
  · intro h fuel
    exact generate_short_url_all_stale recipes draws h fuel 0

/-- A draw sequence every candidate of which is the stored "aaaaaa". -/
def exDrawsStuck : Nat → Fin 6 → Fin 62 := fun _ _ => 0

/-- C9 witness: with "aaaaaa" stored, the retrying sequence terminates
at the second draw for any fuel above 1, while the always-colliding
sequence yields `none` at fuel 7 (and, by the theorem, at every fuel). -/
theorem generate_short_url_unbounded_witness :
    generate_short_url [exRecipeAAA] exDrawsRetry 0 5 = some "bbbbbb" ∧
      generate_short_url [exRecipeAAA] exDrawsStuck 0 7 = none := by
  constructor
  · have := (generate_short_url_unbounded [exRecipeAAA] exDrawsRetry).1 1
      (by intro j hj; interval_cases j; decide) (by decide) 5 (by omega)
    have htok : mkToken (exDrawsRetry 1) = "bbbbbb" := by decide
    rwa [htok] at this
  · exact (generate_short_url_unbounded [exRecipeAAA] exDrawsStuck).2
      (by
        intro k
        show mkToken (fun _ => (0 : Fin 62)) ∈ shortLinks [exRecipeAAA]
        decide) 7

/-- Python truthiness of the `short_link` field: `not self.short_link`
holds for NULL (`None`) and for the empty string. -/
def isBlank : Option String → Bool
  | none => true
  | some s => s == ""

/-- The `short_link` assignment step of `Recipe.save`
(`recipes/models.py` 85–89): `if not self.short_link: self.short_link =
self.generate_short_url()`.  `dbAtCheck` is the table state read by the
generator's existence check; a `none` result is the generator loop not
returning within `fuel` iterations. -/
def saveShortLink (self : Recipe) (dbAtCheck : List Recipe)
    (draws : Nat → Fin 6 → Fin 62) (fuel : Nat) : Option Recipe :=
  if isBlank self.short_link then
    (generate_short_url dbAtCheck draws 0 fuel).map
      fun s => { self with short_link := some s }
  else some self

/-- The storage-level error raised when a constraint rejects an INSERT. -/
inductive DbError where
  | integrityError
deriving DecidableEq

/-- `super().save(*args, **kwargs)` for a new row: the INSERT, guarded
by the storage-level uniqueness constraint on the `short_link` column
(`unique=True, null=True`; NULLs are exempt, as in SQL). -/
def dbInsert (dbAtSave : List Recipe) (r : Recipe) :
    Except DbError (List Recipe) :=
  match r.short_link with
  | some s =>
    if s ∈ shortLinks dbAtSave then Except.error DbError.integrityError
    else Except.ok (dbAtSave ++ [r])
  | none => Except.ok (dbAtSave ++ [r])

/-- `Recipe.save` for a new row: assign the short link if unset, then
INSERT.  `dbAtCheck` is the table state during `generate_short_url`'s
existence check and `dbAtSave` the state at the INSERT; they differ
exactly when a concurrent creation commits in between (the race of
spec §4.1).  There is no exception handling around the INSERT in the
source, so a constraint violation is returned as the final result. -/
def recipeSave (self : Recipe) (dbAtCheck dbAtSave : List Recipe)
    (draws : Nat → Fin 6 → Fin 62) (fuel : Nat) :
    Option (Except DbError (List Recipe)) :=
  (saveShortLink self dbAtCheck draws fuel).map fun r => dbInsert dbAtSave r

/-- A new recipe row about to be saved for the first time. -/
def exNewRecipe : Recipe := ⟨10, "pancakes", none⟩

/-- C5 counterexample: a concrete lost race.  The generator checks
against an empty table and picks "aaaaaa", but by INSERT time another
recipe with short link "aaaaaa" has been committed; `Recipe.save`
returns the IntegrityError to its caller instead of regenerating and
retrying. -/
theorem recipeSave_error_propagates :
    recipeSave exNewRecipe [] [exRecipeAAA] exDrawsStuck 1 =
      some (Except.error DbError.integrityError) := rfl

/-- C5 amended: `Recipe.save` retries only inside `generate_short_url`
*before* the INSERT — the chosen token avoids the table state at check
time — but it installs no handler around the INSERT itself: when the
uniqueness constraint rejects the save, the IntegrityError propagates
to the caller, and no fresh token is generated. -/
theorem recipeSave_no_retry (self : Recipe) (dbAtCheck dbAtSave : List Recipe)
    (draws : Nat → Fin 6 → Fin 62) (fuel : Nat) (r : Recipe) (s : String)
    (hr : saveShortLink self dbAtCheck draws fuel = some r)
    (hs : r.short_link = some s) :
    (isBlank self.short_link = true → s ∉ shortLinks dbAtCheck) ∧
    (s ∈ shortLinks dbAtSave →
      recipeSave self dbAtCheck dbAtSave draws fuel =
        some (Except.error DbError.integrityError)) ∧
    (s ∉ shortLinks dbAtSave →
      recipeSave self dbAtCheck dbAtSave draws fuel =
        some (Except.ok (dbAtSave ++ [r]))) := by
  refine ⟨?_, ?_, ?_⟩
  · intro hblank
    rw [saveShortLink, if_pos hblank] at hr
    obtain ⟨t, hgen, hmap⟩ := Option.map_eq_some'.mp hr
    have : r.short_link = some t := by rw [← hmap]
    rw [hs] at this
    cases this
    exact (generate_short_url_fresh dbAtCheck draws fuel 0 s hgen).2.2
  · intro hmem
    rw [recipeSave, hr, Option.map_some', dbInsert, hs]
    simp [hmem]
  · intro hmem
    rw [recipeSave, hr, Option.map_some', dbInsert, hs]
    simp [hmem]

/-- C5 amended witness: the race instance of `recipeSave_error_propagates`,
driven through `recipeSave_no_retry`. -/
theorem recipeSave_no_retry_witness :
    ("aaaaaa" ∉ shortLinks ([] : List Recipe)) ∧
      recipeSave exNewRecipe [] [exRecipeAAA] exDrawsStuck 1 =
        some (Except.error DbError.integrityError) := by
  have h := recipeSave_no_retry exNewRecipe [] [exRecipeAAA] exDrawsStuck 1
    ⟨10, "pancakes", some "aaaaaa"⟩ "aaaaaa" (by decide) rfl
  exact ⟨h.1 rfl, h.2.1 (by decide)⟩

/-- C6: the `if not self.short_link` guard makes the assignment happen
exactly once.  A recipe whose `short_link` is already set (to a
non-empty token — every assigned token is 6 characters) is passed to
the INSERT unchanged by every subsequent save, whatever its other
fields now hold; a recipe with `short_link` unset gets the freshly
generated token and nothing else changes. -/
theorem short_link_assigned_once (self : Recipe) (dbAtCheck : List Recipe)
    (draws : Nat → Fin 6 → Fin 62) (fuel : Nat) :
    (∀ s : String, self.short_link = some s → s ≠ "" →
        saveShortLink self dbAtCheck draws fuel = some self) ∧
    (self.short_link = none →
        ∀ r, saveShortLink self dbAtCheck draws fuel = some r →
          ∃ s, generate_short_url dbAtCheck draws 0 fuel = some s ∧
            r = { self with short_link := some s }) := by
  constructor
  · intro s hset hne
    rw [saveShortLink, if_neg]
    rw [hset]
    simp [isBlank, hne]
  · intro hnone r hr
    rw [saveShortLink, if_pos (by rw [hnone]; rfl)] at hr
    obtain ⟨t, hgen, hmap⟩ := Option.map_eq_some'.mp hr
    exact ⟨t, hgen, hmap.symm⟩

/-- C6 witness: a recipe already holding "aaaaaa" keeps it across a
save, and a fresh recipe gets the generated token "aaaaaa" assigned. -/
theorem short_link_assigned_once_witness :
    saveShortLink exRecipeAAA [] exDrawsStuck 1 = some exRecipeAAA ∧
      ∃ s, generate_short_url [] exDrawsStuck 0 1 = some s ∧
        ({ exNewRecipe with short_link := some "aaaaaa" } : Recipe) =
          { exNewRecipe with short_link := some s } := by
  constructor
  · exact (short_link_assigned_once exRecipeAAA [] exDrawsStuck 1).1
      "aaaaaa" rfl (by decide)
  · exact (short_link_assigned_once exNewRecipe [] exDrawsStuck 1).2
      rfl ({ exNewRecipe with short_link := some "aaaaaa" }) (by decide)

/-- The group-by key of
`.values('ingredient__name', 'ingredient__measurement_unit')`. -/
def ingKey (ri : RecipeIngredient) : String × String :=
  (ri.ingredient.name, ri.ingredient.measurement_unit)

/-- Whether `(user, recipe)` has a row in the shopping-list table. -/
def inCart (shopping_list : List CartRow) (u rid : Nat) : Bool :=
  shopping_list.any fun e => decide (e.user = u ∧ e.recipe.id = rid)

/-- The row set of
`RecipeIngredient.objects.filter(recipe__in_shopping_list__user=user)`
(`list/views.py` 42–44): SQL joins `recipeingredient` against the
`shoppinglist` rows of the given user on the recipe foreign key,
emitting one output row per matching pair. -/
def joinedRows (shopping_list : List CartRow) (ris : List RecipeIngredient)
    (u : Nat) : List RecipeIngredient :=
  ris.flatMap fun ri =>
    (shopping_list.filter fun e =>
      decide (e.user = u ∧ e.recipe.id = ri.recipe)).map fun _ => ri

/-- `.values('ingredient__name', 'ingredient__measurement_unit')
.annotate(amount_total=Sum('amount'))` (`list/views.py` 42–46): a SQL
GROUP BY over the joined rows — one output row per distinct key, with
the sum of `amount` over the rows of that key. -/
def download_shopping_list_aggregate (shopping_list : List CartRow)
    (ris : List RecipeIngredient) (u : Nat) :
    List ((String × String) × Nat) :=
  ((joinedRows shopping_list ris u).map ingKey).dedup.map fun k =>
    (k, (((joinedRows shopping_list ris u).filter fun ri =>
      decide (ingKey ri = k)).map (·.amount)).sum)

theorem cart_filter_length (l : List CartRow) (u rid : Nat)
    (h : (l.map fun e => (e.user, e.recipe.id)).Nodup) :
    (l.filter fun e => decide (e.user = u ∧ e.recipe.id = rid)).length =
      if inCart l u rid then 1 else 0 := by
  induction l with
  | nil => simp [inCart]
  | cons a l ih =>
    rw [List.map_cons, List.nodup_cons] at h
    by_cases ha : a.user = u ∧ a.recipe.id = rid
    · have hfa : decide (a.user = u ∧ a.recipe.id = rid) = true := by
        exact decide_eq_true ha
      rw [List.filter_cons, if_pos hfa]
      have hnil : l.filter (fun e => decide (e.user = u ∧ e.recipe.id = rid)) = [] := by
        rw [List.filter_eq_nil]
        intro e he hpe
        have hpe' : e.user = u ∧ e.recipe.id = rid := of_decide_eq_true hpe
        apply h.1
        have : (e.user, e.recipe.id) ∈ l.map fun e => (e.user, e.recipe.id) :=
          List.mem_map_of_mem _ he
        rw [hpe'.1, hpe'.2, ← ha.1, ← ha.2] at this
        exact this
      have hany : inCart (a :: l) u rid = true := by
        simp [inCart, ha]
      rw [hany, hnil]
      rfl
    · have hfa : decide (a.user = u ∧ a.recipe.id = rid) = false := by
        exact decide_eq_false ha
      rw [List.filter_cons, if_neg (by simp [hfa])]
      have hany : inCart (a :: l) u rid = inCart l u rid := by
        simp [inCart, ha]
      rw [hany]
      exact ih h.2

theorem joinedRows_eq_filter (shopping_list : List CartRow)
    (ris : List RecipeIngredient) (u : Nat)
    (h : (shopping_list.map fun e => (e.user, e.recipe.id)).Nodup) :
    joinedRows shopping_list ris u =
      ris.filter fun ri => inCart shopping_list u ri.recipe := by
  induction ris with
  | nil => rfl
  | cons a ris ih =>
    rw [joinedRows, List.flatMap_cons]
    by_cases hc : inCart shopping_list u a.recipe
    · have hlen := cart_filter_length shopping_list u a.recipe h
      rw [if_pos hc] at hlen
      obtain ⟨x, hx⟩ := List.length_eq_one.mp hlen
      rw [hx, List.map_singleton, List.filter_cons, if_pos hc]
      rw [joinedRows] at ih
      rw [ih]
      rfl
    · have hlen := cart_filter_length shopping_list u a.recipe h
      rw [if_neg hc] at hlen
      rw [List.length_eq_zero.mp hlen, List.map_nil,
        List.filter_cons, if_neg (by simpa using hc)]
      rw [joinedRows] at ih
      rw [ih]
      rfl

theorem aggregate_keys_nodup (shopping_list : List CartRow)
    (ris : List RecipeIngredient) (u : Nat) :
    ((download_shopping_list_aggregate shopping_list ris u).map Prod.fst).Nodup := by
  have h1 : (download_shopping_list_aggregate shopping_list ris u).map Prod.fst =
      ((joinedRows shopping_list ris u).map ingKey).dedup := by
    rw [download_shopping_list_aggregate, List.map_map]
    have hcomp : (Prod.fst ∘ fun k : String × String =>
        (k, (((joinedRows shopping_list ris u).filter fun ri =>
          decide (ingKey ri = k)).map (·.amount)).sum)) = id := by
      funext k
      rfl
    rw [hcomp, List.map_id]
  rw [h1]
  exact List.nodup_dedup _

theorem aggregate_mem_iff (shopping_list : List CartRow)
    (ris : List RecipeIngredient) (u : Nat)
    (h : (shopping_list.map fun e => (e.user, e.recipe.id)).Nodup)
    (k : String × String) (total : Nat) :
    (k, total) ∈ download_shopping_list_aggregate shopping_list ris u ↔
      (k ∈ (ris.filter fun ri => inCart shopping_list u ri.recipe).map ingKey ∧
        total = (((ris.filter fun ri => inCart shopping_list u ri.recipe).filter
          fun ri => decide (ingKey ri = k)).map (·.amount)).sum) := by
  have hrows := joinedRows_eq_filter shopping_list ris u h
  rw [download_shopping_list_aggregate, hrows]
  constructor
  · intro hmem
    obtain ⟨k', hk', heq⟩ := List.mem_map.mp hmem
    have hk1 : k' = k := congrArg Prod.fst heq
    have hk2 := congrArg Prod.snd heq
    subst hk1
    exact ⟨List.mem_dedup.mp hk', hk2.symm⟩
  · rintro ⟨hk, rfl⟩
    exact List.mem_map.mpr ⟨k, List.mem_dedup.mpr hk, rfl⟩

/-- C1: the aggregated shopping list groups the `RecipeIngredient` rows
of the recipes in the user's cart by `(name, measurement_unit)`: the
emitted keys are pairwise distinct (no group appears twice), and a pair
`(k, total)` is emitted exactly when some cart row has key `k` and
`total` is the sum of `amount` over all cart rows with key `k` — so an
ingredient shared by two carted recipes contributes one line with the
amounts added.  The hypothesis is the `unique_shopping_list_item`
constraint of `list/models.py`: no duplicate `(user, recipe)` rows. -/
theorem shopping_list_aggregation_correct (shopping_list : List CartRow)
    (ris : List RecipeIngredient) (u : Nat)
    (h : (shopping_list.map fun e => (e.user, e.recipe.id)).Nodup) :
    ((download_shopping_list_aggregate shopping_list ris u).map Prod.fst).Nodup ∧
    (∀ k total,
      (k, total) ∈ download_shopping_list_aggregate shopping_list ris u ↔
        (k ∈ (ris.filter fun ri => inCart shopping_list u ri.recipe).map ingKey ∧
          total = (((ris.filter fun ri => inCart shopping_list u ri.recipe).filter
            fun ri => decide (ingKey ri = k)).map (·.amount)).sum)) :=
  ⟨aggregate_keys_nodup shopping_list ris u,
    fun k total => aggregate_mem_iff shopping_list ris u h k total⟩

/-- The flour ingredient of the spec's aggregation test. -/
def exFlour : Ingredient := ⟨1, "flour", "g"⟩

/-- The egg ingredient of the spec's aggregation test. -/
def exEgg : Ingredient := ⟨2, "egg", "pcs"⟩

/-- Recipe A (flour 200). -/
def exRecipeA : Recipe := ⟨1, "A", none⟩

/-- Recipe B (flour 300, egg 2). -/
def exRecipeB : Recipe := ⟨2, "B", none⟩

/-- The `RecipeIngredient` rows of recipes A and B. -/
def exRIs : List RecipeIngredient :=
  [⟨1, exFlour, 200⟩, ⟨2, exFlour, 300⟩, ⟨2, exEgg, 2⟩]

/-- User 0's shopping-list rows: both A and B are in the cart. -/
def exCart : List CartRow := [⟨0, exRecipeA⟩, ⟨0, exRecipeB⟩]

/-- C1 witness: with recipes A (flour 200) and B (flour 300, egg 2)
both in user 0's cart, the aggregation emits flour with total 500 —
the cross-recipe amounts added into one group — and egg with total 2. -/
theorem shopping_list_aggregation_witness :
    (("flour", "g"), 500) ∈ download_shopping_list_aggregate exCart exRIs 0 ∧
      (("egg", "pcs"), 2) ∈ download_shopping_list_aggregate exCart exRIs 0 := by
  have h := shopping_list_aggregation_correct exCart exRIs 0 (by decide)
  exact ⟨(h.2 ("flour", "g") 500).mpr (by decide),
    (h.2 ("egg", "pcs") 2).mpr (by decide)⟩

/-- The HTTP responses the embedded views produce: a DRF JSON
`Response(...)` with its status and key/value body, a
`RecipeSimpleSerializer`/`RecipeShortSerializer` payload, a plain-text
attachment (`HttpResponse` + `Content-Disposition`), or an HTTP
redirect. -/
inductive HttpResponse where
  | json (status : Nat) (body : List (String × String))
  | recipeJson (status : Nat) (recipe : Recipe)
  | file (status : Nat) (contentType : String) (filename : String) (body : String)
  | redirect (status : Nat) (location : String)
deriving DecidableEq

/-- One line of the aggregated export (`list/views.py` 49):
`f"- {item['ingredient__name']}: {item['amount_total']}
{item['ingredient__measurement_unit']}\n"`. -/
def shoppingListLine (kv : (String × String) × Nat) : String :=
  "- " ++ kv.1.1 ++ ": " ++ Nat.repr kv.2 ++ " " ++ kv.1.2 ++ "\n"

/-- The text chunks accumulated by the loop of
`ShoppingListViewSet.download_shopping_list` (`list/views.py` 47–49):
the header, then one line per aggregated group. -/
def download_shopping_list_lines (shopping_list : List CartRow)
    (ris : List RecipeIngredient) (u : Nat) : List String :=
  "Список покупок:\n" ::
    (download_shopping_list_aggregate shopping_list ris u).map shoppingListLine

/-- `ShoppingListViewSet.download_shopping_list` (`list/views.py`
40–52): unconditionally a 200 plain-text attachment — the view has no
empty-cart branch. -/
def download_shopping_list (shopping_list : List CartRow)
    (ris : List RecipeIngredient) (u : Nat) : HttpResponse :=
  HttpResponse.file 200 "text/plain" "shopping_list.txt"
    (String.join (download_shopping_list_lines shopping_list ris u))

/-- `DownloadShoppingCartView.get` (`api/views.py` 199–230): HTTP 400
with a JSON detail when the user's `ShoppingCart` rows are empty,
otherwise a per-recipe (unaggregated) plain-text attachment. -/
def download_shopping_cart_get (shopping_cart : List CartRow)
    (ris : List RecipeIngredient) (u : Nat) : HttpResponse :=
  let cart := shopping_cart.filter fun e => decide (e.user = u)
  if cart.isEmpty then
    HttpResponse.json 400 [("detail", "Список покупок пуст.")]
  else
    HttpResponse.file 200 "text/plain" "shopping_cart.txt" (String.join
      ("Список покупок:\n\n" :: cart.flatMap fun item =>
        ((item.recipe.name ++ ": \n") ::
          ((ris.filter fun ri => decide (ri.recipe = item.recipe.id)).map fun ri =>
            " - " ++ ri.ingredient.name ++ " (" ++ ri.ingredient.measurement_unit
              ++ "): " ++ Nat.repr ri.amount ++ "\n"))
          ++ ["\n"]))

theorem joinedRows_of_no_cart_rows (shopping_list : List CartRow)
    (ris : List RecipeIngredient) (u : Nat)
    (hl : shopping_list.filter (fun e => decide (e.user = u)) = []) :
    joinedRows shopping_list ris u = [] := by
  have hnone : ∀ e ∈ shopping_list, e.user ≠ u := by
    intro e he
    have := List.filter_eq_nil_iff.mp hl e he
    simpa using this
  induction ris with
  | nil => rfl
  | cons a ris ih =>
    rw [joinedRows, List.flatMap_cons]
    have hfil : (shopping_list.filter fun e =>
        decide (e.user = u ∧ e.recipe.id = a.recipe)) = [] := by
      rw [List.filter_eq_nil_iff]
      intro e he
      simp only [decide_eq_true_eq, not_and]
      intro hu
      exact absurd hu (hnone e he)
    rw [hfil, List.map_nil, List.nil_append]
    rw [joinedRows] at ih
    exact ih

/-- C3 counterexample: the list-app download endpoint has no empty-cart
branch — for user 0 with zero cart entries it answers with a 200
plain-text attachment holding only the header line (a header-only
file), not with the HTTP 400 JSON empty signal. -/
theorem empty_cart_header_only_file :
    download_shopping_list [] [] 0 =
      HttpResponse.file 200 "text/plain" "shopping_list.txt"
        "Список покупок:\n" ∧
    download_shopping_list [] [] 0 ≠
      HttpResponse.json 400 [("detail", "Список покупок пуст.")] := by
  constructor
  · rfl
  · intro hcontra
    cases hcontra

/-- C3 amended: an empty cart makes `DownloadShoppingCartView` answer
HTTP 400 with `{"detail": "Список покупок пуст."}` and never a file,
as claimed; but the list-app `download_shopping_list` endpoint performs
no empty-cart check and answers a 200 header-only file instead. -/
theorem empty_cart_behaviour (shopping_cart shopping_list : List CartRow)
    (ris : List RecipeIngredient) (u : Nat)
    (hc : shopping_cart.filter (fun e => decide (e.user = u)) = [])
    (hl : shopping_list.filter (fun e => decide (e.user = u)) = []) :
    download_shopping_cart_get shopping_cart ris u =
      HttpResponse.json 400 [("detail", "Список покупок пуст.")] ∧
    download_shopping_list shopping_list ris u =
      HttpResponse.file 200 "text/plain" "shopping_list.txt"
        "Список покупок:\n" := by
  constructor
  · rw [download_shopping_cart_get]
    simp only [hc]
    rfl
  · rw [download_shopping_list, download_shopping_list_lines,
      download_shopping_list_aggregate,
      joinedRows_of_no_cart_rows shopping_list ris u hl]
    rfl

/-- C3 amended witness: user 0 with empty cart tables. -/
theorem empty_cart_behaviour_witness :
    download_shopping_cart_get [⟨1, exRecipeA⟩] exRIs 0 =
      HttpResponse.json 400 [("detail", "Список покупок пуст.")] ∧
    download_shopping_list [⟨1, exRecipeA⟩] exRIs 0 =
      HttpResponse.file 200 "text/plain" "shopping_list.txt"
        "Список покупок:\n" :=
  empty_cart_behaviour [⟨1, exRecipeA⟩] [⟨1, exRecipeA⟩] exRIs 0
    (by decide) (by decide)

/-- Lexicographic (codepoint) order on strings as character lists — the
"ascending, case-sensitive" collation of the spec's sort. -/
def charListLe : List Char → List Char → Bool
  | [], _ => true
  | _ :: _, [] => false
  | a :: as, b :: bs => if a = b then charListLe as bs else decide (a < b)

/-- The output shape the spec asserts for the aggregated list (spec
§4.2 step 5 and §8.4), written from the spec's words for comparison
with the code's renderer: one line `"<name> (<measurement_unit>):
<total_amount>"` per group, sorted by ingredient name ascending. -/
def specShoppingListLines (groups : List ((String × String) × Nat)) :
    List String :=
  (groups.insertionSort fun a b => charListLe a.1.1.data b.1.1.data).map fun kv =>
    kv.1.1 ++ " (" ++ kv.1.2 ++ "): " ++ Nat.repr kv.2

/-- The rows of a single recipe listing flour before egg. -/
def exRIsOrder : List RecipeIngredient := [⟨1, exFlour, 200⟩, ⟨1, exEgg, 2⟩]

/-- User 0's cart holding just that recipe. -/
def exCartOrder : List CartRow := [⟨0, exRecipeA⟩]

/-- C4 counterexample: for a cart aggregating to the groups flour
(200 g) and egg (2 pcs), the code renders `"- flour: 200 g"` then
`"- egg: 2 pcs"` — neither the claimed `"<name> (<unit>): <total>"`
line shape nor name-ascending order ("flour" sorts after "egg") —
while the spec's format yields `["egg (pcs): 2", "flour (g): 200"]`. -/
theorem shopping_list_format_counterexample :
    download_shopping_list_lines exCartOrder exRIsOrder 0 =
      ["Список покупок:\n", "- flour: 200 g\n", "- egg: 2 pcs\n"] ∧
    specShoppingListLines
        (download_shopping_list_aggregate exCartOrder exRIsOrder 0) =
      ["egg (pcs): 2", "flour (g): 200"] ∧
    (["Список покупок:\n", "- flour: 200 g\n", "- egg: 2 pcs\n"] :
        List String).tail ≠ ["egg (pcs): 2", "flour (g): 200"] := by
  refine ⟨by decide, by decide, by decide⟩

/-- C4 amended: each non-header line of the aggregated export is
formatted `"- <name>: <total_amount> <measurement_unit>"` (plus a
trailing newline), where the total is the summed amount of that
`(name, unit)` group over the user's cart rows; the query applies no
`order_by`, so no name-ascending order of the lines is imposed. -/
theorem shopping_list_lines_format (shopping_list : List CartRow)
    (ris : List RecipeIngredient) (u : Nat)
    (h : (shopping_list.map fun e => (e.user, e.recipe.id)).Nodup) :
    ∀ line ∈ (download_shopping_list_lines shopping_list ris u).tail,
      ∃ name unit,
        (name, unit) ∈
          (ris.filter fun ri => inCart shopping_list u ri.recipe).map ingKey ∧
        line = "- " ++ name ++ ": " ++ Nat.repr
            ((((ris.filter fun ri => inCart shopping_list u ri.recipe).filter
              fun ri => decide (ingKey ri = (name, unit))).map (·.amount)).sum)
          ++ " " ++ unit ++ "\n" := by
  intro line hline
  rw [download_shopping_list_lines, List.tail_cons] at hline
  obtain ⟨kv, hkv, rfl⟩ := List.mem_map.mp hline
  obtain ⟨k, total⟩ := kv
  obtain ⟨hk, htotal⟩ := (aggregate_mem_iff shopping_list ris u h k total).mp hkv
  refine ⟨k.1, k.2, ?_, ?_⟩
  · rw [Prod.mk.eta]
    exact hk
  · rw [shoppingListLine, Prod.mk.eta, htotal]

/-- C4 amended witness: the flour line of the two-recipe example cart
carries the cross-recipe total 500. -/
theorem shopping_list_lines_format_witness :
    ∃ name unit,
      (name, unit) ∈
        (exRIs.filter fun ri => inCart exCart 0 ri.recipe).map ingKey ∧
      "- flour: 500 g\n" = "- " ++ name ++ ": " ++ Nat.repr
          ((((exRIs.filter fun ri => inCart exCart 0 ri.recipe).filter
            fun ri => decide (ingKey ri = (name, unit))).map (·.amount)).sum)
        ++ " " ++ unit ++ "\n" :=
  shopping_list_lines_format exCart exRIs 0 (by decide)
    "- flour: 500 g\n" (by decide)

/-- Modelled from the spec: the short-link redirect endpoint.  No view
under `src/` resolves a Recipe by `short_link` (the `get-link` views
look rows up by numeric id and answer a JSON payload, and the
`get_absolute_url` they call is declared nowhere in `src/`); spec §6
describes the missing endpoint — `GET /<token>/` looks the Recipe up by
`shortLink` and issues an HTTP redirect to the canonical detail URL, or
reports "not found" when no Recipe matches. -/
def short_link_redirect (recipes : List Recipe) (token : String) :
    HttpResponse :=
  match recipes.find? fun r => decide (r.short_link = some token) with
  | some recipe =>
    HttpResponse.redirect 302 ("/recipes/" ++ Nat.repr recipe.id ++ "/")
  | none => HttpResponse.json 404 [("detail", "Страница не найдена.")]

theorem short_link_lookup_unique (recipes : List Recipe) (t : String) :
    (shortLinks recipes).Nodup → ∀ r r' : Recipe, r ∈ recipes → r' ∈ recipes →
      r.short_link = some t → r'.short_link = some t → r = r' := by
  induction recipes with
  | nil =>
    intro _ r r' hr
    cases hr
  | cons a l ih =>
    intro h r r' hr hr' e e'
    have htail : ∀ x : Recipe, x ∈ l → x.short_link = some t →
        a.short_link = some t → False := by
      intro x hx ex ea
      have hsl : shortLinks (a :: l) = t :: shortLinks l := by
        rw [shortLinks, List.filterMap_cons, ea]
        rfl
      rw [hsl, List.nodup_cons] at h
      exact h.1 (List.mem_filterMap.mpr ⟨x, hx, ex⟩)
    have hnodup_tail : (shortLinks l).Nodup := by
      rcases ha : a.short_link with _ | b
      · have hsl : shortLinks (a :: l) = shortLinks l := by
          rw [shortLinks, List.filterMap_cons, ha]
          rfl
        rwa [hsl] at h
      · have hsl : shortLinks (a :: l) = b :: shortLinks l := by
          rw [shortLinks, List.filterMap_cons, ha]
          rfl
        rw [hsl, List.nodup_cons] at h
        exact h.2
    rcases List.mem_cons.mp hr with rfl | hrl
    · rcases List.mem_cons.mp hr' with rfl | hr'l
      · rfl
      · exact absurd (htail r' hr'l e' e) id
    · rcases List.mem_cons.mp hr' with rfl | hr'l
      · exact absurd (htail r hrl e e') id
      · exact ih hnodup_tail r r' hrl hr'l e e'

/-- C7 (the endpoint is modelled from the spec, see
`short_link_redirect`): when a stored Recipe holds the token as its
`short_link` — unique by the storage constraint — the response is an
HTTP redirect to that recipe's canonical detail URL; when no stored
Recipe holds it, the response is not-found. -/
theorem short_link_redirect_spec (recipes : List Recipe) (token : String) :
    ((shortLinks recipes).Nodup →
      ∀ r ∈ recipes, r.short_link = some token →
        short_link_redirect recipes token =
          HttpResponse.redirect 302 ("/recipes/" ++ Nat.repr r.id ++ "/")) ∧
    ((∀ r ∈ recipes, r.short_link ≠ some token) →
      short_link_redirect recipes token =
        HttpResponse.json 404 [("detail", "Страница не найдена.")]) := by
  constructor
  · intro h r hr hlink
    rw [short_link_redirect]
    cases hfind : recipes.find? fun x => decide (x.short_link = some token) with
    | none =>
      exfalso
      have := List.find?_eq_none.mp hfind r hr
      simp [hlink] at this
    | some r' =>
      have hr'mem := List.mem_of_find?_eq_some hfind
      have hr'link : r'.short_link = some token := by
        have := List.find?_some hfind
        simpa using this
      rw [short_link_lookup_unique recipes token h r r' hr hr'mem hlink hr'link]
  · intro h
    rw [short_link_redirect]
    rw [List.find?_eq_none.mpr fun r hr => by simpa using h r hr]

/-- C7 witness: token "aaaaaa" redirects to recipe 1's detail URL;
token "zzzzzz" is not found. -/
theorem short_link_redirect_spec_witness :
    short_link_redirect [exRecipeAAA] "aaaaaa" =
      HttpResponse.redirect 302 "/recipes/1/" ∧
    short_link_redirect [exRecipeAAA] "zzzzzz" =
      HttpResponse.json 404 [("detail", "Страница не найдена.")] := by
  constructor
  · exact (short_link_redirect_spec [exRecipeAAA] "aaaaaa").1
      (by decide) exRecipeAAA (by decide) (by decide)
  · exact (short_link_redirect_spec [exRecipeAAA] "zzzzzz").2 (by decide)

/-- `BaseRecipeRelationView.post` (`api/views.py` 253–269) as
instantiated by `ShoppingCartView`: the recipe has already been
resolved by `get_recipe`; reject with 400 when the `(user, recipe)` row
already exists, otherwise create the row and answer 201 with the
serialized recipe. -/
def base_relation_post (cart : List CartRow) (u : Nat) (recipe : Recipe)
    (already_exists_error : String) : HttpResponse × List CartRow :=
  if cart.any fun e => decide (e.user = u ∧ e.recipe.id = recipe.id) then
    (HttpResponse.json 400 [("detail", already_exists_error)], cart)
  else
    (HttpResponse.recipeJson 201 recipe, cart ++ [⟨u, recipe⟩])

/-- C8: adding a recipe already present in the user's cart is rejected
with HTTP 400 (the configured "already exists" detail) and the cart
rows are untouched by the rejected attempt; moreover the handler
preserves the `unique_shopping_cart_user_recipe` invariant, so at most
one row per `(user, recipe)` pair ever exists. -/
theorem shopping_cart_duplicate_rejected (cart : List CartRow) (u : Nat)
    (recipe : Recipe) (err : String) :
    ((∃ e ∈ cart, e.user = u ∧ e.recipe.id = recipe.id) →
      base_relation_post cart u recipe err =
        (HttpResponse.json 400 [("detail", err)], cart)) ∧
    ((cart.map fun e => (e.user, e.recipe.id)).Nodup →
      (((base_relation_post cart u recipe err).2.map fun e =>
        (e.user, e.recipe.id)).Nodup)) := by
  constructor
  · intro hex
    have hany : (cart.any fun e =>
        decide (e.user = u ∧ e.recipe.id = recipe.id)) = true := by
      rw [List.any_eq_true]
      obtain ⟨e, he, hp⟩ := hex
      exact ⟨e, he, decide_eq_true hp⟩
    rw [base_relation_post, if_pos hany]
  · intro hnodup
    by_cases hany : (cart.any fun e =>
        decide (e.user = u ∧ e.recipe.id = recipe.id)) = true
    · rw [base_relation_post, if_pos hany]
      exact hnodup
    · rw [base_relation_post, if_neg hany]
      have hnotmem : (u, recipe.id) ∉ cart.map fun e => (e.user, e.recipe.id) := by
        intro hmem
        obtain ⟨e, he, heq⟩ := List.mem_map.mp hmem
        apply hany
        rw [List.any_eq_true]
        refine ⟨e, he, decide_eq_true ?_⟩
        exact ⟨congrArg Prod.fst heq, congrArg Prod.snd heq⟩
      rw [List.map_append]
      rw [List.nodup_append]
      refine ⟨hnodup, List.nodup_singleton _, ?_⟩
      intro x hx hx'
      rcases List.mem_singleton.mp hx' with rfl
      exact hnotmem hx

/-- C8 witness: with recipe A already in user 0's cart, a second add is
answered 400 and the cart is unchanged; the uniqueness invariant holds
afterwards. -/
theorem shopping_cart_duplicate_rejected_witness :
    base_relation_post [⟨0, exRecipeA⟩] 0 exRecipeA "Рецепт уже в списке покупок." =
      (HttpResponse.json 400 [("detail", "Рецепт уже в списке покупок.")],
        [⟨0, exRecipeA⟩]) ∧
    (((base_relation_post [⟨0, exRecipeA⟩] 0 exRecipeA
        "Рецепт уже в списке покупок.").2.map fun e =>
      (e.user, e.recipe.id)).Nodup) := by
  constructor
  · exact (shopping_cart_duplicate_rejected [⟨0, exRecipeA⟩] 0 exRecipeA
      "Рецепт уже в списке покупок.").1 ⟨⟨0, exRecipeA⟩, by decide, by decide⟩
  · exact (shopping_cart_duplicate_rejected [⟨0, exRecipeA⟩] 0 exRecipeA
      "Рецепт уже в списке покупок.").2 (by decide)

/-- `ShoppingCartView.post` (`recipes/views.py` 129–141): resolve the
recipe by id — 404 when absent — then reject duplicates with 400 or
create the cart row. -/
def shopping_cart_post (recipes : List Recipe) (cart : List CartRow)
    (u : Nat) (rid : Nat) : HttpResponse × List CartRow :=
  match recipes.find? fun r => decide (r.id = rid) with
  | none => (HttpResponse.json 404 [("detail", "Рецепт не найден.")], cart)
  | some recipe =>
    if cart.any fun e => decide (e.user = u ∧ e.recipe.id = recipe.id) then
      (HttpResponse.json 400 [("detail", "Рецепт уже в списке покупок.")], cart)
    else
      (HttpResponse.recipeJson 201 recipe, cart ++ [⟨u, recipe⟩])

/-- `ShoppingCartView.delete` (`recipes/views.py` 143–155): resolve the
recipe by id — 404 when absent — then delete the `(user, recipe)` row
if it exists (204) or answer 400. -/
def shopping_cart_delete (recipes : List Recipe) (cart : List CartRow)
    (u : Nat) (rid : Nat) : HttpResponse × List CartRow :=
  match recipes.find? fun r => decide (r.id = rid) with
  | none => (HttpResponse.json 404 [("detail", "Рецепт не найден.")], cart)
  | some recipe =>
    match cart.find? fun e => decide (e.user = u ∧ e.recipe.id = recipe.id) with
    | none => (HttpResponse.json 400 [("detail", "Рецепта нет в списке покупок.")], cart)
    | some _ =>
      (HttpResponse.json 204 [],
        cart.eraseP fun e => decide (e.user = u ∧ e.recipe.id = recipe.id))

/-- C10: a cart add or remove naming a recipe id that matches no stored
Recipe answers 404 Not Found and leaves the cart rows unchanged — no
row is created or deleted. -/
theorem shopping_cart_unknown_recipe (recipes : List Recipe)
    (cart : List CartRow) (u : Nat) (rid : Nat)
    (h : ∀ r ∈ recipes, r.id ≠ rid) :
    shopping_cart_post recipes cart u rid =
      (HttpResponse.json 404 [("detail", "Рецепт не найден.")], cart) ∧
    shopping_cart_delete recipes cart u rid =
      (HttpResponse.json 404 [("detail", "Рецепт не найден.")], cart) := by
  have hfind : (recipes.find? fun r => decide (r.id = rid)) = none :=
    List.find?_eq_none.mpr fun r hr => by simpa using h r hr
  constructor
  · rw [shopping_cart_post, hfind]
  · rw [shopping_cart_delete, hfind]

/-- C10 witness: with only recipes 1 and 2 stored, id 99 answers 404 on
both add and remove and the cart keeps its single row. -/
theorem shopping_cart_unknown_recipe_witness :
    shopping_cart_post [exRecipeA, exRecipeB] [⟨0, exRecipeA⟩] 0 99 =
      (HttpResponse.json 404 [("detail", "Рецепт не найден.")],
        [⟨0, exRecipeA⟩]) ∧
    shopping_cart_delete [exRecipeA, exRecipeB] [⟨0, exRecipeA⟩] 0 99 =
      (HttpResponse.json 404 [("detail", "Рецепт не найден.")],
        [⟨0, exRecipeA⟩]) :=
  shopping_cart_unknown_recipe [exRecipeA, exRecipeB] [⟨0, exRecipeA⟩] 0 99
    (by decide)

end Foodgram
